import Mathlib

/-!
# CodeCube: the per-session state machine of `main.go`

A shallow embedding of `model`, `model.Update`, `model.View` and `teaHandler`
from `src/main.go`, together with the properties of the specification that
concern them.

Modelling choices.

* Go strings are Lean `String`s; `[]byte(s)` and `string(b)` are mutually
  inverse and are left implicit.
* A Go `error` is represented by its message, the value of `err.Error()`.
* `log.Fatal(err)` prints the error and exits the process: it is the
  `Outcome.fatal` result, after which nothing is returned to the caller.
* The libraries the program calls are not part of the repository.  The pure
  widget functions (`textinput`, `progress`, `lipgloss`) are the fields of
  `Lib`; the effectful collaborators (`gonanoid`, the `kv` store behind
  `globalDB`, the clipboard) are the fields of `Ext`, which thread an explicit
  world state.  Every call made to an `Ext` collaborator is recorded, in
  program order, in the list of `Call`s of the step.
-/

namespace CodeCube

/-! ## Messages and commands -/

/-- The messages `Update` can receive.  A key message is identified by the
text `msg.String()` that `Update` switches on; `other` stands for every message
type `Update` has no case for. -/
inductive Msg where
  | WindowSizeMsg (Width Height : Int)
  | tickMsg (t : Nat)
  | KeyMsg (key : String)
  | other (tag : Nat)
  deriving DecidableEq, Repr

/-- The commands `Update` returns: `nil`, `tea.Quit`, `tickCmd()`, a command
produced by a library widget, and `tea.Batch` of two commands. -/
inductive Cmd where
  | nil
  | Quit
  | tickCmd
  | widget (tag : Nat)
  | Batch (a b : Cmd)
  deriving DecidableEq, Repr

/-! ## External collaborators -/

/-- One call to an effectful collaborator. -/
inductive Call where
  | Generate (alphabet : String) (size : Nat)
  | Set (key value : String)
  | Sync
  | Get (key : String)
  | WriteAll (text : String)
  deriving DecidableEq, Repr

/-- The pure widget functions used by `Update` and `View`: `TI` is
`textinput.Model`, `P` is `progress.Model`. -/
structure Lib (TI P : Type) where
  /-- The method `textinput.Model.Value`. -/
  Value : TI → String
  /-- The method `textinput.Model.Update`. -/
  tiUpdate : TI → Msg → TI × Cmd
  /-- The method `textinput.Model.View`. -/
  tiView : TI → String
  /-- The state of the progress bar after `IncrPercent(0.25)`. -/
  IncrPercent : P → P
  /-- The method `progress.Model.View`. -/
  progressView : P → String

/-- The effectful collaborators over a world state `W`: `gonanoid.Generate`,
the methods `Set`, `Sync` and `Get` of `globalDB`, and `clip.WriteAll` (whose
error result the program ignores).  An error is `Except.error` or `some` of its
message. -/
structure Ext (W : Type) where
  Generate : String → Nat → W → Except String String × W
  Set : String → String → W → Option String × W
  Sync : W → Option String × W
  Get : String → W → Except String String × W
  WriteAll : String → W → W

/-- How a function of the program ends: it returns a value, or `log.Fatal`
ends the process with the given error. -/
inductive Outcome (α : Type) where
  | returned (a : α)
  | fatal (err : String)

/-- The result of one step: how it ended, the world it leaves and the calls it
made to the collaborators, in order. -/
structure Step (W α : Type) where
  out : Outcome α
  world : W
  calls : List Call

/-! ## The model -/

/-- The struct `model` of `main.go`. -/
structure model (TI P : Type) where
  term : String
  width : Int
  height : Int
  textInput : TI
  savedId : String
  state : String
  progress : P

/-- The terminal a session is attached to, as `s.Pty()` reports it. -/
structure Pty where
  Term : String
  Width : Int
  Height : Int

/-- The function `teaHandler`: no model without an active terminal; otherwise
the model built from the terminal, the configured text input `ti` and a new
progress bar `pr`, the fields `savedId` and `state` keeping their zero value,
the empty string. -/
def teaHandler {TI P : Type} (ti : TI) (pr : P) (pty : Option Pty) : Option (model TI P) :=
  match pty with
  | none => none
  | some p =>
    some { term := p.Term, width := p.Width, height := p.Height, textInput := ti,
           savedId := "", state := "", progress := pr }

/-- The alphabet passed to `gonanoid.Generate` (line 147). -/
def idAlphabet : String := "qwertyuiopasdfghjlzxcvbnm1234567890"

/-- The size passed to `gonanoid.Generate` (line 147). -/
def idSize : Nat := 8

/-- The last two lines of `Update`: the message is handed to the text input and
the model is returned with the batch of the text input command and
`tickCmd()`. -/
def model.pass {W TI P : Type} (L : Lib TI P) (m : model TI P) (msg : Msg) (w : W)
    (calls : List Call) : Step W (model TI P × Cmd) :=
  ⟨Outcome.returned ({ m with textInput := (L.tiUpdate m.textInput msg).1 },
      Cmd.Batch (L.tiUpdate m.textInput msg).2 Cmd.tickCmd), w, calls⟩

/-- The create branch of the `enter` case (lines 146 to 158). -/
def model.create {W TI P : Type} (L : Lib TI P) (X : Ext W) (m : model TI P) (msg : Msg)
    (w : W) : Step W (model TI P × Cmd) :=
  match X.Generate idAlphabet idSize w with
  | (Except.error err, w1) => ⟨Outcome.fatal err, w1, [Call.Generate idAlphabet idSize]⟩
  | (Except.ok id, w1) =>
    let m1 : model TI P := { m with state := "loading" }
    match X.Set id (L.Value m1.textInput) w1 with
    | (some err, w2) =>
      ⟨Outcome.fatal err, w2,
        [Call.Generate idAlphabet idSize, Call.Set id (L.Value m1.textInput)]⟩
    | (none, w2) =>
      model.pass L { m1 with savedId := id, state := "pasted" } msg w2
        [Call.Generate idAlphabet idSize, Call.Set id (L.Value m1.textInput)]

/-- The retrieve branch of the `enter` case (lines 160 to 175). -/
def model.retrieve {W TI P : Type} (L : Lib TI P) (X : Ext W) (m : model TI P) (msg : Msg)
    (w : W) : Step W (model TI P × Cmd) :=
  match X.Sync w with
  | (some err, w1) => ⟨Outcome.fatal err, w1, [Call.Sync]⟩
  | (none, w1) =>
    let m1 : model TI P := { m with state := "loading" }
    match X.Get (L.Value m1.textInput) w1 with
    | (Except.error err, w2) =>
      if err = "Key not found" then
        model.pass L { m1 with state := "keyNotFound" } msg w2
          [Call.Sync, Call.Get (L.Value m1.textInput)]
      else
        ⟨Outcome.fatal err, w2, [Call.Sync, Call.Get (L.Value m1.textInput)]⟩
    | (Except.ok result, w2) =>
      model.pass L { m1 with state := "copied" } msg (X.WriteAll result w2)
        [Call.Sync, Call.Get (L.Value m1.textInput), Call.WriteAll result]

/-- The method `model.Update` (lines 112 to 181). -/
def model.Update {W TI P : Type} (L : Lib TI P) (X : Ext W) (m : model TI P) (msg : Msg)
    (w : W) : Step W (model TI P × Cmd) :=
  match msg with
  | Msg.WindowSizeMsg Width Height =>
    model.pass L { m with height := Height, width := Width } msg w []
  | Msg.tickMsg _ =>
    model.pass L { m with progress := L.IncrPercent m.progress } msg w []
  | Msg.KeyMsg key =>
    if key = "q" ∨ key = "ctrl+c" then
      ⟨Outcome.returned (m, Cmd.Quit), w, []⟩
    else if key = "x" ∨ key = "X" then
      if m.state = "" then
        ⟨Outcome.returned ({ m with state := "newPaste" }, Cmd.nil), w, []⟩
      else model.pass L m msg w []
    else if key = "r" ∨ key = "R" then
      if m.state = "" then
        ⟨Outcome.returned ({ m with state := "getPaste" }, Cmd.nil), w, []⟩
      else model.pass L m msg w []
    else if key = "a" ∨ key = "A" then
      if m.state = "" then
        ⟨Outcome.returned ({ m with state := "flavor" }, Cmd.nil), w, []⟩
      else model.pass L m msg w []
    else if key = "b" ∨ key = "B" then
      if m.state = "flavor" then
        ⟨Outcome.returned ({ m with state := "" }, Cmd.nil), w, []⟩
      else model.pass L m msg w []
    else if key = "enter" then
      if m.state = "newPaste" ∧ L.Value m.textInput ≠ "" then
        model.create L X m msg w
      else if m.state = "getPaste" ∧ L.Value m.textInput ≠ "" then
        model.retrieve L X m msg w
      else model.pass L m msg w []
    else model.pass L m msg w []
  | Msg.other _ => model.pass L m msg w []

/-- What `View` returns, the styling and layout done by `lipgloss` left
symbolic: one constructor for each case of the switch on `m.state`. -/
inductive Screen where
  | pasteSaved (savedId : String)
  | centerMenu (width height : Int)
  | renderedFlavorText (width height : Int)
  | pasteContent (input : String)
  | copiedToClipboard
  | enterPasteId (input : String)
  | progressBar (bar : String)
  | uhOh
  deriving DecidableEq, Repr

/-- The method `model.View` (lines 183 to 231). -/
def model.View {TI P : Type} (L : Lib TI P) (m : model TI P) : Screen :=
  if m.state = "pasted" then Screen.pasteSaved m.savedId
  else if m.state = "" then Screen.centerMenu m.width m.height
  else if m.state = "flavor" then Screen.renderedFlavorText m.width m.height
  else if m.state = "newPaste" then Screen.pasteContent (L.tiView m.textInput)
  else if m.state = "copied" then Screen.copiedToClipboard
  else if m.state = "getPaste" then Screen.enterPasteId (L.tiView m.textInput)
  else if m.state = "loading" then Screen.progressBar (L.progressView m.progress)
  else Screen.uhOh

/-! ## Sessions -/

/-- A session: the messages of the list are applied through `Update` one after
the other, each on the model and the world the previous one left; a fatal step
ends the run.  The returned commands are not interpreted (the messages they give
rise to are messages of the list). -/
def updates {W TI P : Type} (L : Lib TI P) (X : Ext W) :
    model TI P → W → List Msg → Step W (model TI P)
  | m, w, [] => ⟨Outcome.returned m, w, []⟩
  | m, w, msg :: rest =>
    match model.Update L X m msg w with
    | ⟨Outcome.returned (m1, _), w1, cs⟩ =>
      ⟨(updates L X m1 w1 rest).out, (updates L X m1 w1 rest).world,
        cs ++ (updates L X m1 w1 rest).calls⟩
    | ⟨Outcome.fatal err, w1, cs⟩ => ⟨Outcome.fatal err, w1, cs⟩

/-- The keys that end the session (the first case of the switch). -/
def quitKey (key : String) : Prop := key = "q" ∨ key = "ctrl+c"

instance (key : String) : Decidable (quitKey key) := by
  unfold quitKey; exact inferInstance

/-- The navigation keys: the four cases of the switch between the quit keys
and `enter`. -/
def navKeys : List String := ["x", "X", "r", "R", "a", "A", "b", "B"]

/-- The phases a session can show (the spec names them Menu, CreatePaste,
RetrievePaste, About, Created, Copied and KeyNotFound). -/
def reachablePhases : List String :=
  ["", "newPaste", "getPaste", "flavor", "pasted", "copied", "keyNotFound"]

/-- The phase table of the navigation keys, as the specification words it:
from Menu, x gives CreatePaste, r gives RetrievePaste and a gives About; from
About, b gives Menu; everything else leaves the phase as it is. -/
def navPhase (state key : String) : String :=
  if state = "" ∧ (key = "x" ∨ key = "X") then "newPaste"
  else if state = "" ∧ (key = "r" ∨ key = "R") then "getPaste"
  else if state = "" ∧ (key = "a" ∨ key = "A") then "flavor"
  else if state = "flavor" ∧ (key = "b" ∨ key = "B") then ""
  else state

/-- Collaborators that never fail, except that `Get` may report that the key is
not found. -/
def Ext.Benign {W : Type} (X : Ext W) : Prop :=
  (∀ a n w, ∃ id, (X.Generate a n w).1 = Except.ok id) ∧
  (∀ k v w, (X.Set k v w).1 = none) ∧
  (∀ w, (X.Sync w).1 = none) ∧
  (∀ k w, (∃ v, (X.Get k w).1 = Except.ok v) ∨ (X.Get k w).1 = Except.error "Key not found")

/-- A submit fails with the error `err`: in the create branch the generator
fails, or it succeeds and `Set` fails; in the retrieve branch `Sync` fails, or it
succeeds and `Get` fails with an error other than key-not-found. -/
def submitFails {W TI P : Type} (L : Lib TI P) (X : Ext W) (m : model TI P) (w : W)
    (err : String) : Prop :=
  (m.state = "newPaste" ∧
    ((X.Generate idAlphabet idSize w).1 = Except.error err ∨
     ∃ id, (X.Generate idAlphabet idSize w).1 = Except.ok id ∧
       (X.Set id (L.Value m.textInput) (X.Generate idAlphabet idSize w).2).1 = some err)) ∨
  (m.state = "getPaste" ∧
    ((X.Sync w).1 = some err ∨
     ((X.Sync w).1 = none ∧
       (X.Get (L.Value m.textInput) (X.Sync w).2).1 = Except.error err ∧
       err ≠ "Key not found")))

/-! ## The store as a map -/

/-- A world in which the store is a map from identifiers to contents and the
clipboard sink records what is delivered to it, the latest delivery first. -/
structure MapWorld where
  db : String → Option String
  clipboard : List String

/-- The collaborators over a `MapWorld`: `Set` overwrites the entry of the key,
`Sync` changes nothing, `Get` reads the entry of the key and reports
`Key not found` when there is none; none of them fails otherwise.  The
generator answers `gen`. -/
def mapExt (gen : String → Nat → Except String String) : Ext MapWorld where
  Generate := fun a n w => (gen a n, w)
  Set := fun k v w => (none, { w with db := fun k2 => if k2 = k then some v else w.db k2 })
  Sync := fun w => (none, w)
  Get := fun k w =>
    (match w.db k with
      | some v => Except.ok v
      | none => Except.error "Key not found", w)
  WriteAll := fun s w => { w with clipboard := s :: w.clipboard }

/-! ## Concrete instances -/

/-- A text input that is its own value and appends every one-character key. -/
def demoLib : Lib String Nat where
  Value := fun t => t
  tiUpdate := fun t msg =>
    match msg with
    | Msg.KeyMsg k => if k.length = 1 then (t ++ k, Cmd.nil) else (t, Cmd.nil)
    | _ => (t, Cmd.nil)
  tiView := fun t => t
  IncrPercent := fun p => min (p + 25) 100
  progressView := fun p => toString p

/-- A generator that always answers the same identifier. -/
def demoGen (_ : String) (_ : Nat) : Except String String := Except.ok "abcd1234"

/-- A generator that always fails. -/
def brokenGen (_ : String) (_ : Nat) : Except String String := Except.error "no entropy"

/-- A store on which every write fails. -/
def readOnlyExt : Ext MapWorld :=
  { mapExt demoGen with Set := fun _ _ w => (some "disk full", w) }

/-- The empty store and an empty clipboard log. -/
def emptyWorld : MapWorld := ⟨fun _ => none, []⟩

/-- A model in the given phase with the given text in the buffer. -/
def demoModel (state buffer : String) : model String Nat :=
  { term := "xterm", width := 80, height := 24, textInput := buffer,
    savedId := "", state := state, progress := 0 }

/-! ## Lemmas on single steps -/

theorem ne_empty_of_length_pos (s : String) (h : 0 < s.length) : s ≠ "" := by
  intro hs
  subst hs
  exact absurd h (by decide)

theorem pass_eq {W TI P : Type} (L : Lib TI P) (m : model TI P) (msg : Msg) (w : W)
    (cs : List Call) :
    ∃ m1 c, model.pass L m msg w cs = ⟨Outcome.returned (m1, c), w, cs⟩ ∧
      m1.state = m.state ∧ m1.savedId = m.savedId ∧ m1.width = m.width ∧
      m1.height = m.height :=
  ⟨_, _, rfl, rfl, rfl, rfl, rfl⟩

/-- In a phase other than Menu, About, CreatePaste and RetrievePaste no message
changes the phase, and no collaborator is called. -/
theorem Update_frozen {W TI P : Type} (L : Lib TI P) (X : Ext W) (m : model TI P)
    (msg : Msg) (w : W) (h1 : m.state ≠ "") (h2 : m.state ≠ "flavor")
    (h3 : m.state ≠ "newPaste") (h4 : m.state ≠ "getPaste") :
    ∃ m1 c, model.Update L X m msg w = ⟨Outcome.returned (m1, c), w, []⟩ ∧
      m1.state = m.state := by
  cases msg with
  | WindowSizeMsg a b => exact ⟨_, _, rfl, rfl⟩
  | tickMsg t => exact ⟨_, _, rfl, rfl⟩
  | other t => exact ⟨_, _, rfl, rfl⟩
  | KeyMsg key =>
    simp only [model.Update, h1, h2, h3, h4, false_and, if_false]
    split_ifs <;> exact ⟨_, _, rfl, rfl⟩

/-- Whatever a step returns, its phase is the old one or the target of one of
the transitions of `Update`. -/
theorem Update_phase_cases {W TI P : Type} (L : Lib TI P) (X : Ext W) (m m1 : model TI P)
    (msg : Msg) (w : W) (c : Cmd)
    (h : (model.Update L X m msg w).out = Outcome.returned (m1, c)) :
    m1.state = m.state ∨
    (m.state = "" ∧ (m1.state = "newPaste" ∨ m1.state = "getPaste" ∨ m1.state = "flavor")) ∨
    (m.state = "flavor" ∧ m1.state = "") ∨
    (m.state = "newPaste" ∧ m1.state = "pasted") ∨
    (m.state = "getPaste" ∧ (m1.state = "keyNotFound" ∨ m1.state = "copied")) := by
  cases msg with
  | WindowSizeMsg a b =>
    simp only [model.Update, model.pass, Outcome.returned.injEq, Prod.mk.injEq] at h
    left; rw [← h.1]
  | tickMsg t =>
    simp only [model.Update, model.pass, Outcome.returned.injEq, Prod.mk.injEq] at h
    left; rw [← h.1]
  | other t =>
    simp only [model.Update, model.pass, Outcome.returned.injEq, Prod.mk.injEq] at h
    left; rw [← h.1]
  | KeyMsg key =>
    simp only [model.Update] at h
    split_ifs at h with k1 k2 s2 k3 s3 k4 s4 k5 s5 k6 s6 s7
    all_goals first
      | (simp only [model.pass, Outcome.returned.injEq, Prod.mk.injEq] at h
         obtain ⟨hm, _⟩ := h
         subst hm
         simp_all)
      | skip
    · -- create
      obtain ⟨hs, _⟩ := s6
      simp only [model.create] at h
      rcases hg : X.Generate idAlphabet idSize w with ⟨r, w1⟩
      rw [hg] at h
      cases r with
      | error e => simp at h
      | ok id =>
        simp only at h
        rcases hS : X.Set id (L.Value m.textInput) w1 with ⟨r2, w2⟩
        rw [hS] at h
        cases r2 with
        | some e => simp at h
        | none =>
          simp only [model.pass, Outcome.returned.injEq, Prod.mk.injEq] at h
          obtain ⟨hm, _⟩ := h
          subst hm
          simp [hs]
    · -- retrieve
      obtain ⟨hs, _⟩ := s7
      simp only [model.retrieve] at h
      rcases hy : X.Sync w with ⟨r, w1⟩
      rw [hy] at h
      cases r with
      | some e => simp at h
      | none =>
        simp only at h
        rcases hG : X.Get (L.Value m.textInput) w1 with ⟨r2, w2⟩
        rw [hG] at h
        cases r2 with
        | error e =>
          simp only at h
          split_ifs at h
          simp only [model.pass, Outcome.returned.injEq, Prod.mk.injEq] at h
          obtain ⟨hm, _⟩ := h
          subst hm
          simp [hs]
        | ok v =>
          simp only [model.pass, Outcome.returned.injEq, Prod.mk.injEq] at h
          obtain ⟨hm, _⟩ := h
          subst hm
          simp [hs]

/-- With collaborators that do not fail, every step returns. -/
theorem Update_returns_of_benign {W TI P : Type} (L : Lib TI P) (X : Ext W)
    (hX : X.Benign) (m : model TI P) (msg : Msg) (w : W) :
    ∃ m1 c, (model.Update L X m msg w).out = Outcome.returned (m1, c) := by
  obtain ⟨hgen, hset, hsync, hget⟩ := hX
  cases msg with
  | WindowSizeMsg a b => exact ⟨_, _, rfl⟩
  | tickMsg t => exact ⟨_, _, rfl⟩
  | other t => exact ⟨_, _, rfl⟩
  | KeyMsg key =>
    simp only [model.Update]
    split_ifs
    all_goals first
      | exact ⟨_, _, rfl⟩
      | skip
    · simp only [model.create]
      obtain ⟨id, hid⟩ := hgen idAlphabet idSize w
      rcases hg : X.Generate idAlphabet idSize w with ⟨r, w1⟩
      rw [hg] at hid
      simp only at hid
      subst hid
      simp only
      have hs := hset id (L.Value m.textInput) w1
      rcases hS : X.Set id (L.Value m.textInput) w1 with ⟨r2, w2⟩
      rw [hS] at hs
      simp only at hs
      subst hs
      exact ⟨_, _, rfl⟩
    · simp only [model.retrieve]
      have hy := hsync w
      rcases hY : X.Sync w with ⟨r, w1⟩
      rw [hY] at hy
      simp only at hy
      subst hy
      simp only
      have hg := hget (L.Value m.textInput) w1
      rcases hG : X.Get (L.Value m.textInput) w1 with ⟨r2, w2⟩
      rw [hG] at hg
      simp only at hg
      rcases hg with ⟨v, hv⟩ | hv
      · subst hv
        exact ⟨_, _, rfl⟩
      · subst hv
        exact ⟨_, _, rfl⟩

/-! ## Lemmas on sessions -/

theorem updates_cons_returned {W TI P : Type} (L : Lib TI P) (X : Ext W)
    (m m1 : model TI P) (c : Cmd) (w w1 : W) (cs : List Call) (msg : Msg) (rest : List Msg)
    (h : model.Update L X m msg w = ⟨Outcome.returned (m1, c), w1, cs⟩) :
    updates L X m w (msg :: rest) =
      ⟨(updates L X m1 w1 rest).out, (updates L X m1 w1 rest).world,
        cs ++ (updates L X m1 w1 rest).calls⟩ := by
  simp only [updates, h]

theorem updates_cons_fatal {W TI P : Type} (L : Lib TI P) (X : Ext W)
    (m : model TI P) (err : String) (w w1 : W) (cs : List Call) (msg : Msg) (rest : List Msg)
    (h : model.Update L X m msg w = ⟨Outcome.fatal err, w1, cs⟩) :
    updates L X m w (msg :: rest) = ⟨Outcome.fatal err, w1, cs⟩ := by
  simp only [updates, h]

/-- A step is determined by its three components. -/
theorem Step.eta {W α : Type} (s : Step W α) : s = ⟨s.out, s.world, s.calls⟩ := rfl

/-- A session that starts in a phase other than Menu, About, CreatePaste and
RetrievePaste stays in it, whatever the messages, and calls no collaborator. -/
theorem updates_frozen {W TI P : Type} (L : Lib TI P) (X : Ext W) (msgs : List Msg) :
    ∀ (m : model TI P) (w : W), m.state ≠ "" → m.state ≠ "flavor" →
      m.state ≠ "newPaste" → m.state ≠ "getPaste" →
      ∃ m1, updates L X m w msgs = ⟨Outcome.returned m1, w, []⟩ ∧ m1.state = m.state := by
  induction msgs with
  | nil => intro m w _ _ _ _; exact ⟨m, rfl, rfl⟩
  | cons msg rest ih =>
    intro m w h1 h2 h3 h4
    obtain ⟨m1, c, hstep, hst⟩ := Update_frozen L X m msg w h1 h2 h3 h4
    obtain ⟨m2, hrest, hst2⟩ := ih m1 w (hst ▸ h1) (hst ▸ h2) (hst ▸ h3) (hst ▸ h4)
    refine ⟨m2, ?_, hst2.trans hst⟩
    rw [updates_cons_returned L X m m1 c w w [] msg rest hstep, hrest]
    rfl

/-- The phases of `reachablePhases` are closed under every returning step. -/
theorem Update_reachable {W TI P : Type} (L : Lib TI P) (X : Ext W) (m m1 : model TI P)
    (msg : Msg) (w : W) (c : Cmd)
    (h : (model.Update L X m msg w).out = Outcome.returned (m1, c))
    (hm : m.state ∈ reachablePhases) : m1.state ∈ reachablePhases := by
  rcases Update_phase_cases L X m m1 msg w c h with
    h0 | ⟨_, h1 | h1 | h1⟩ | ⟨_, h1⟩ | ⟨_, h1⟩ | ⟨_, h1 | h1⟩
  · rw [h0]; exact hm
  all_goals rw [h1]; decide

/-- The phases of `reachablePhases` are closed under sessions. -/
theorem updates_reachable {W TI P : Type} (L : Lib TI P) (X : Ext W) (msgs : List Msg) :
    ∀ (m m1 : model TI P) (w : W), m.state ∈ reachablePhases →
      (updates L X m w msgs).out = Outcome.returned m1 → m1.state ∈ reachablePhases := by
  induction msgs with
  | nil =>
    intro m m1 w hm h
    simp only [updates, Outcome.returned.injEq] at h
    exact h ▸ hm
  | cons msg rest ih =>
    intro m m1 w hm h
    rcases hstep : model.Update L X m msg w with ⟨o, w1, cs⟩
    cases o with
    | fatal err =>
      rw [updates_cons_fatal L X m err w w1 cs msg rest hstep] at h
      simp at h
    | returned a =>
      obtain ⟨m2, c⟩ := a
      rw [updates_cons_returned L X m m2 c w w1 cs msg rest hstep] at h
      have hout : (model.Update L X m msg w).out = Outcome.returned (m2, c) := by rw [hstep]
      exact ih m2 m1 w1 (Update_reachable L X m m2 msg w c hout hm) h

/-- With collaborators that do not fail, every session returns. -/
theorem updates_returns_of_benign {W TI P : Type} (L : Lib TI P) (X : Ext W)
    (hX : X.Benign) (msgs : List Msg) :
    ∀ (m : model TI P) (w : W), ∃ m1, (updates L X m w msgs).out = Outcome.returned m1 := by
  induction msgs with
  | nil => intro m w; exact ⟨m, rfl⟩
  | cons msg rest ih =>
    intro m w
    obtain ⟨m2, c, hout⟩ := Update_returns_of_benign L X hX m msg w
    rcases hstep : model.Update L X m msg w with ⟨o, w1, cs⟩
    rw [hstep] at hout
    simp only at hout
    subst hout
    rw [updates_cons_returned L X m m2 c w w1 cs msg rest hstep]
    exact ih m2 w1

/-! ## The claims -/

/-- C9. Quit is honoured from every state: for every model, whatever its phase
and text buffer, `Update` on the key `q` or `ctrl+c` returns the command
`tea.Quit` together with the model unchanged, leaves the world as it was and
calls no collaborator. -/
theorem quit_honored {W TI P : Type} (L : Lib TI P) (X : Ext W) (m : model TI P)
    (key : String) (w : W) (hq : key = "q" ∨ key = "ctrl+c") :
    model.Update L X m (Msg.KeyMsg key) w = ⟨Outcome.returned (m, Cmd.Quit), w, []⟩ := by
  simp only [model.Update, hq, if_true]

theorem quit_honored_witness :
    ("ctrl+c" = "q" ∨ "ctrl+c" = "ctrl+c") ∧
    model.Update demoLib (mapExt demoGen) (demoModel "newPaste" "half a paste")
        (Msg.KeyMsg "ctrl+c") emptyWorld =
      ⟨Outcome.returned (demoModel "newPaste" "half a paste", Cmd.Quit), emptyWorld, []⟩ :=
  ⟨by decide, quit_honored demoLib (mapExt demoGen) (demoModel "newPaste" "half a paste")
    "ctrl+c" emptyWorld (by decide)⟩

/-- C6. Submit on an empty buffer is a no-op: for every model in the CreatePaste
or the RetrievePaste phase whose text buffer is empty, `Update` on the key
`enter` returns a model with the same phase and the same saved identifier,
leaves the world as it was and calls no collaborator (no identifier is
generated, no `Set`, `Sync` or `Get` is performed). -/
theorem submit_empty_noop {W TI P : Type} (L : Lib TI P) (X : Ext W) (m : model TI P)
    (w : W) (hphase : m.state = "newPaste" ∨ m.state = "getPaste")
    (hempty : L.Value m.textInput = "") :
    ∃ m1 c, model.Update L X m (Msg.KeyMsg "enter") w = ⟨Outcome.returned (m1, c), w, []⟩ ∧
      m1.state = m.state ∧ m1.savedId = m.savedId := by
  have hk : model.Update L X m (Msg.KeyMsg "enter") w =
      model.pass L m (Msg.KeyMsg "enter") w [] := by
    rcases hphase with h | h <;> simp [model.Update, h, hempty]
  rw [hk]
  exact ⟨_, _, rfl, rfl, rfl⟩

theorem submit_empty_noop_witness :
    ((demoModel "newPaste" "").state = "newPaste" ∨
      (demoModel "newPaste" "").state = "getPaste") ∧
    demoLib.Value (demoModel "newPaste" "").textInput = "" ∧
    ∃ m1 c, model.Update demoLib (mapExt demoGen) (demoModel "newPaste" "")
        (Msg.KeyMsg "enter") emptyWorld = ⟨Outcome.returned (m1, c), emptyWorld, []⟩ ∧
      m1.state = (demoModel "newPaste" "").state ∧
      m1.savedId = (demoModel "newPaste" "").savedId :=
  ⟨by decide, by decide,
    submit_empty_noop demoLib (mapExt demoGen) (demoModel "newPaste" "") emptyWorld
      (by decide) (by decide)⟩

/-- C7, counterexample. The key x in the CreatePaste phase, and the key b in
the Menu phase, with the text `id` in the buffer: the phase is unchanged, as the
claim lists, but the key is handed to the text input and the buffer of the
returned model is no longer the old one. -/
theorem nav_key_changes_buffer :
    "x" ∈ navKeys ∧ "b" ∈ navKeys ∧
    model.Update demoLib (mapExt demoGen) (demoModel "newPaste" "id") (Msg.KeyMsg "x")
        emptyWorld =
      ⟨Outcome.returned (demoModel "newPaste" "idx", Cmd.Batch Cmd.nil Cmd.tickCmd),
        emptyWorld, []⟩ ∧
    model.Update demoLib (mapExt demoGen) (demoModel "" "id") (Msg.KeyMsg "b")
        emptyWorld =
      ⟨Outcome.returned (demoModel "" "idb", Cmd.Batch Cmd.nil Cmd.tickCmd),
        emptyWorld, []⟩ ∧
    demoLib.Value (demoModel "newPaste" "idx").textInput ≠
      demoLib.Value (demoModel "newPaste" "id").textInput ∧
    demoLib.Value (demoModel "" "idb").textInput ≠
      demoLib.Value (demoModel "" "id").textInput :=
  ⟨by decide, by decide, rfl, rfl, by decide, by decide⟩

/-- C7, amended. Navigation keys: for each of the keys x, X, r, R, a, A, b, B
in any phase, and for every non-quit key in the About phase, `Update` returns a
model whose phase is given by the table `navPhase` (from Menu, x gives
CreatePaste, r gives RetrievePaste and a gives About; from About, b gives Menu;
otherwise the phase is unchanged); geometry and saved identifier are unchanged,
the world is left as it was and no collaborator is called.  When the phase
changes, the returned model is the old one with the new phase (the text buffer
untouched) and the command is nil.  When the phase does not change, the key is
handed to the text input: the returned model is the old one with the text input
that `textinput.Update` returns for the key, and the command is the batch of
its command and `tickCmd()`. -/
theorem navigation_keys {W TI P : Type} (L : Lib TI P) (X : Ext W) (m : model TI P)
    (key : String) (w : W)
    (hkey : key ∈ navKeys ∨ (m.state = "flavor" ∧ ¬ quitKey key)) :
    ∃ m1 c, model.Update L X m (Msg.KeyMsg key) w = ⟨Outcome.returned (m1, c), w, []⟩ ∧
      m1.state = navPhase m.state key ∧
      m1.width = m.width ∧ m1.height = m.height ∧ m1.savedId = m.savedId ∧
      (navPhase m.state key ≠ m.state →
        m1 = { m with state := navPhase m.state key } ∧ c = Cmd.nil) ∧
      (navPhase m.state key = m.state →
        m1 = { m with textInput := (L.tiUpdate m.textInput (Msg.KeyMsg key)).1 } ∧
        c = Cmd.Batch (L.tiUpdate m.textInput (Msg.KeyMsg key)).2 Cmd.tickCmd) := by
  have hU : model.Update L X m (Msg.KeyMsg key) w =
      if navPhase m.state key = m.state then model.pass L m (Msg.KeyMsg key) w []
      else ⟨Outcome.returned ({ m with state := navPhase m.state key }, Cmd.nil), w, []⟩ := by
    rcases hkey with hnav | ⟨hs, hq⟩
    · simp only [navKeys, List.mem_cons, List.mem_singleton, List.not_mem_nil,
        or_false] at hnav
      by_cases h0 : m.state = ""
      · rcases hnav with h | h | h | h | h | h | h | h <;> subst h <;>
          simp [model.Update, navPhase, h0]
      · by_cases h1 : m.state = "flavor"
        · rcases hnav with h | h | h | h | h | h | h | h <;> subst h <;>
            simp [model.Update, navPhase, h1]
        · rcases hnav with h | h | h | h | h | h | h | h <;> subst h <;>
            simp [model.Update, navPhase, h0, h1]
    · simp only [quitKey] at hq
      by_cases hb : key = "b" ∨ key = "B"
      · rcases hb with h | h <;> subst h <;> simp [model.Update, navPhase, hs]
      · have hn : navPhase m.state key = m.state := by
          simp [navPhase, hs, hb]
        rw [if_pos hn]
        simp only [model.Update, hq, hb, hs, if_false]
        split_ifs <;> simp_all
  rw [hU]
  by_cases hn : navPhase m.state key = m.state
  · rw [if_pos hn]
    exact ⟨_, _, rfl, hn.symm, rfl, rfl, rfl, fun h => absurd hn h, fun _ => ⟨rfl, rfl⟩⟩
  · rw [if_neg hn]
    exact ⟨_, _, rfl, rfl, rfl, rfl, rfl, fun _ => ⟨rfl, rfl⟩, fun h => absurd h hn⟩

theorem navigation_keys_witness :
    ("r" ∈ navKeys ∨ ((demoModel "" "").state = "flavor" ∧ ¬ quitKey "r")) ∧
    ∃ m1 c, model.Update demoLib (mapExt demoGen) (demoModel "" "") (Msg.KeyMsg "r")
        emptyWorld = ⟨Outcome.returned (m1, c), emptyWorld, []⟩ ∧
      m1.state = navPhase (demoModel "" "").state "r" ∧
      m1.width = (demoModel "" "").width ∧ m1.height = (demoModel "" "").height ∧
      m1.savedId = (demoModel "" "").savedId ∧
      (navPhase (demoModel "" "").state "r" ≠ (demoModel "" "").state →
        m1 = { demoModel "" "" with state := navPhase (demoModel "" "").state "r" } ∧
        c = Cmd.nil) ∧
      (navPhase (demoModel "" "").state "r" = (demoModel "" "").state →
        m1 = { demoModel "" "" with
          textInput := (demoLib.tiUpdate (demoModel "" "").textInput (Msg.KeyMsg "r")).1 } ∧
        c = Cmd.Batch (demoLib.tiUpdate (demoModel "" "").textInput (Msg.KeyMsg "r")).2
          Cmd.tickCmd) :=
  ⟨Or.inl (by decide),
    navigation_keys demoLib (mapExt demoGen) (demoModel "" "") "r" emptyWorld
      (Or.inl (by decide))⟩

/-- C3. A successful create step: on the key `enter` in the CreatePaste phase
with a non-empty buffer, when the generator succeeds with an identifier of the
requested length over the given alphabet and `Set` succeeds, `Update` returns a
model in the Created phase whose saved identifier is the generated one; the
calls are the generation and the `Set` of the buffer content under that
identifier; and the identifier has exactly 8 characters, each in a-z or 0-9. -/
theorem create_success {W TI P : Type} (L : Lib TI P) (X : Ext W) (m : model TI P)
    (w w1 w2 : W) (id : String)
    (hphase : m.state = "newPaste") (hbuf : L.Value m.textInput ≠ "")
    (hgen : X.Generate idAlphabet idSize w = (Except.ok id, w1))
    (hcontract : id.length = idSize ∧ ∀ ch ∈ id.data, ch ∈ idAlphabet.data)
    (hset : X.Set id (L.Value m.textInput) w1 = (none, w2)) :
    ∃ m1 c, model.Update L X m (Msg.KeyMsg "enter") w =
        ⟨Outcome.returned (m1, c), w2,
          [Call.Generate idAlphabet idSize, Call.Set id (L.Value m.textInput)]⟩ ∧
      m1.state = "pasted" ∧ m1.savedId = id ∧ id.length = 8 ∧
      ∀ ch ∈ id.data, ('a' ≤ ch ∧ ch ≤ 'z') ∨ ('0' ≤ ch ∧ ch ≤ '9') := by
  have hU : model.Update L X m (Msg.KeyMsg "enter") w =
      model.pass L { m with savedId := id, state := "pasted" } (Msg.KeyMsg "enter") w2
        [Call.Generate idAlphabet idSize, Call.Set id (L.Value m.textInput)] := by
    simp [model.Update, model.create, hphase, hbuf, hgen, hset]
  have halpha : ∀ ch ∈ idAlphabet.data, ('a' ≤ ch ∧ ch ≤ 'z') ∨ ('0' ≤ ch ∧ ch ≤ '9') := by
    decide
  rw [hU]
  exact ⟨_, _, rfl, rfl, rfl, hcontract.1, fun ch hch => halpha ch (hcontract.2 ch hch)⟩

theorem create_success_witness :
    (demoModel "newPaste" "hello world").state = "newPaste" ∧
    demoLib.Value (demoModel "newPaste" "hello world").textInput ≠ "" ∧
    ("abcd1234".length = idSize ∧ ∀ ch ∈ "abcd1234".data, ch ∈ idAlphabet.data) ∧
    ∃ m1 c, model.Update demoLib (mapExt demoGen) (demoModel "newPaste" "hello world")
        (Msg.KeyMsg "enter") emptyWorld =
        ⟨Outcome.returned (m1, c),
          { emptyWorld with
            db := fun k2 => if k2 = "abcd1234" then some "hello world" else emptyWorld.db k2 },
          [Call.Generate idAlphabet idSize,
            Call.Set "abcd1234" (demoLib.Value (demoModel "newPaste" "hello world").textInput)]⟩ ∧
      m1.state = "pasted" ∧ m1.savedId = "abcd1234" ∧ "abcd1234".length = 8 ∧
      ∀ ch ∈ "abcd1234".data, ('a' ≤ ch ∧ ch ≤ 'z') ∨ ('0' ≤ ch ∧ ch ≤ '9') :=
  ⟨rfl, by decide, by decide,
    create_success demoLib (mapExt demoGen) (demoModel "newPaste" "hello world")
      emptyWorld emptyWorld _ "abcd1234" rfl (by decide) rfl (by decide) rfl⟩

/-- C5. Retrieval of an identifier that was never written: with the store a
map, for every non-empty identifier in the text buffer that is not a key of the
store, `Update` on the key `enter` in the RetrievePaste phase returns (it does
not abort) a model in the KeyNotFound phase; the calls are `Sync` and `Get` of
the identifier, nothing is delivered to the clipboard sink, and the world (store
contents and clipboard log) is left as it was. -/
theorem retrieve_unknown_id {TI P : Type} (L : Lib TI P)
    (gen : String → Nat → Except String String) (m : model TI P) (w : MapWorld)
    (hphase : m.state = "getPaste") (hbuf : L.Value m.textInput ≠ "")
    (hmiss : w.db (L.Value m.textInput) = none) :
    ∃ m1 c, model.Update L (mapExt gen) m (Msg.KeyMsg "enter") w =
        ⟨Outcome.returned (m1, c), w, [Call.Sync, Call.Get (L.Value m.textInput)]⟩ ∧
      m1.state = "keyNotFound" := by
  have hU : model.Update L (mapExt gen) m (Msg.KeyMsg "enter") w =
      model.pass L { m with state := "keyNotFound" } (Msg.KeyMsg "enter") w
        [Call.Sync, Call.Get (L.Value m.textInput)] := by
    simp [model.Update, model.retrieve, mapExt, hphase, hbuf, hmiss]
  rw [hU]
  exact ⟨_, _, rfl, rfl⟩

theorem retrieve_unknown_id_witness :
    (demoModel "getPaste" "zzzzzzzz").state = "getPaste" ∧
    demoLib.Value (demoModel "getPaste" "zzzzzzzz").textInput ≠ "" ∧
    emptyWorld.db (demoLib.Value (demoModel "getPaste" "zzzzzzzz").textInput) = none ∧
    ∃ m1 c, model.Update demoLib (mapExt demoGen) (demoModel "getPaste" "zzzzzzzz")
        (Msg.KeyMsg "enter") emptyWorld =
        ⟨Outcome.returned (m1, c), emptyWorld,
          [Call.Sync, Call.Get (demoLib.Value (demoModel "getPaste" "zzzzzzzz").textInput)]⟩ ∧
      m1.state = "keyNotFound" :=
  ⟨rfl, by decide, rfl,
    retrieve_unknown_id demoLib demoGen (demoModel "getPaste" "zzzzzzzz") emptyWorld
      rfl (by decide) rfl⟩

/-- C1, counterexample. The content of length 0: with the empty buffer the
submit in CreatePaste returns the model unchanged (phase CreatePaste, saved
identifier empty, nothing stored), and the submit in RetrievePaste with that
saved identifier in the buffer returns the model unchanged as well: the phase
is not Copied and nothing is delivered to the clipboard sink. -/
theorem round_trip_empty_content :
    "".length = 0 ∧
    model.Update demoLib (mapExt demoGen) (demoModel "newPaste" "") (Msg.KeyMsg "enter")
        emptyWorld =
      ⟨Outcome.returned (demoModel "newPaste" "", Cmd.Batch Cmd.nil Cmd.tickCmd),
        emptyWorld, []⟩ ∧
    (demoModel "newPaste" "").savedId = "" ∧
    model.Update demoLib (mapExt demoGen) (demoModel "getPaste" "") (Msg.KeyMsg "enter")
        emptyWorld =
      ⟨Outcome.returned (demoModel "getPaste" "", Cmd.Batch Cmd.nil Cmd.tickCmd),
        emptyWorld, []⟩ ∧
    (demoModel "getPaste" "").state ≠ "copied" ∧
    emptyWorld.clipboard = [] :=
  ⟨rfl, rfl, rfl, rfl, by decide, rfl⟩

/-- C1, amended. Round trip for contents of length 1 to 100,000: with the store
a map and the generator succeeding with an identifier of the requested length,
the submit in CreatePaste with the content in the buffer returns a model in
the Created phase, and from the world it leaves, the submit in RetrievePaste of
any session whose buffer holds the saved identifier returns a model in the
Copied phase, after `Sync`, `Get` of that identifier and the delivery of exactly
the original content to the clipboard sink. -/
theorem round_trip {TI P : Type} (L : Lib TI P) (gen : String → Nat → Except String String)
    (m : model TI P) (w : MapWorld) (content id : String)
    (hphase : m.state = "newPaste") (hbuf : L.Value m.textInput = content)
    (hlen : 1 ≤ content.length ∧ content.length ≤ 100000)
    (hgen : gen idAlphabet idSize = Except.ok id) (hid : id.length = idSize) :
    ∃ m1 c1 w1 cs1, model.Update L (mapExt gen) m (Msg.KeyMsg "enter") w =
        ⟨Outcome.returned (m1, c1), w1, cs1⟩ ∧
      m1.state = "pasted" ∧
      ∀ m2 : model TI P, m2.state = "getPaste" → L.Value m2.textInput = m1.savedId →
        ∃ m3 c3 w3, model.Update L (mapExt gen) m2 (Msg.KeyMsg "enter") w1 =
            ⟨Outcome.returned (m3, c3), w3,
              [Call.Sync, Call.Get m1.savedId, Call.WriteAll content]⟩ ∧
          m3.state = "copied" ∧ w3.clipboard = content :: w.clipboard ∧ w3.db = w1.db := by
  have hne : content ≠ "" := ne_empty_of_length_pos content hlen.1
  have hidne : id ≠ "" := ne_empty_of_length_pos id (by rw [hid]; decide)
  have hU : model.Update L (mapExt gen) m (Msg.KeyMsg "enter") w =
      model.pass L { m with savedId := id, state := "pasted" } (Msg.KeyMsg "enter")
        { w with db := fun k2 => if k2 = id then some content else w.db k2 }
        [Call.Generate idAlphabet idSize, Call.Set id content] := by
    simp [model.Update, model.create, mapExt, hphase, hbuf, hne, hgen]
  rw [hU]
  refine ⟨_, _, _, _, rfl, rfl, ?_⟩
  intro m2 h2 hv
  have hv2 : L.Value m2.textInput = id := hv
  have hU2 : model.Update L (mapExt gen) m2 (Msg.KeyMsg "enter")
      { w with db := fun k2 => if k2 = id then some content else w.db k2 } =
      model.pass L { m2 with state := "copied" } (Msg.KeyMsg "enter")
        { db := fun k2 => if k2 = id then some content else w.db k2,
          clipboard := content :: w.clipboard }
        [Call.Sync, Call.Get id, Call.WriteAll content] := by
    simp [model.Update, model.retrieve, mapExt, h2, hv2, hidne]
  rw [hU2]
  exact ⟨_, _, _, rfl, rfl, rfl, rfl⟩

theorem round_trip_witness :
    (demoModel "newPaste" "hello world").state = "newPaste" ∧
    demoLib.Value (demoModel "newPaste" "hello world").textInput = "hello world" ∧
    (1 ≤ "hello world".length ∧ "hello world".length ≤ 100000) ∧
    demoGen idAlphabet idSize = Except.ok "abcd1234" ∧ "abcd1234".length = idSize ∧
    ∃ m1 c1 w1 cs1, model.Update demoLib (mapExt demoGen)
        (demoModel "newPaste" "hello world") (Msg.KeyMsg "enter") emptyWorld =
        ⟨Outcome.returned (m1, c1), w1, cs1⟩ ∧
      m1.state = "pasted" ∧
      ∀ m2 : model String Nat, m2.state = "getPaste" →
        demoLib.Value m2.textInput = m1.savedId →
        ∃ m3 c3 w3, model.Update demoLib (mapExt demoGen) m2 (Msg.KeyMsg "enter") w1 =
            ⟨Outcome.returned (m3, c3), w3,
              [Call.Sync, Call.Get m1.savedId, Call.WriteAll "hello world"]⟩ ∧
          m3.state = "copied" ∧ w3.clipboard = "hello world" :: emptyWorld.clipboard ∧
          w3.db = w1.db :=
  ⟨rfl, rfl, by decide, rfl, by decide,
    round_trip demoLib demoGen (demoModel "newPaste" "hello world") emptyWorld
      "hello world" "abcd1234" rfl rfl (by decide) rfl (by decide)⟩

/-- C2, counterexample. A submit in CreatePaste on a store whose `Set` fails
with the error `disk full`: `Update` returns no model at all, the step ends in
`log.Fatal` with that error after the generation and the `Set`. -/
theorem set_failure_aborts :
    model.Update demoLib readOnlyExt (demoModel "newPaste" "hello world")
        (Msg.KeyMsg "enter") emptyWorld =
      ⟨Outcome.fatal "disk full", emptyWorld,
        [Call.Generate idAlphabet idSize, Call.Set "abcd1234" "hello world"]⟩ ∧
    ¬ ∃ m1 c, (model.Update demoLib readOnlyExt (demoModel "newPaste" "hello world")
        (Msg.KeyMsg "enter") emptyWorld).out = Outcome.returned (m1, c) := by
  have h : model.Update demoLib readOnlyExt (demoModel "newPaste" "hello world")
        (Msg.KeyMsg "enter") emptyWorld =
      ⟨Outcome.fatal "disk full", emptyWorld,
        [Call.Generate idAlphabet idSize, Call.Set "abcd1234" "hello world"]⟩ := rfl
  refine ⟨h, ?_⟩
  rintro ⟨m1, c, hm⟩
  rw [h] at hm
  exact Outcome.noConfusion hm

/-- C2, amended. For every submit (key `enter` with a non-empty buffer) in
CreatePaste or RetrievePaste in which identifier generation, `Set`, `Sync` or
`Get` fails with an error other than key-not-found, `Update` returns no model:
the step ends in `log.Fatal` carrying exactly that error, which ends the
process. -/
theorem submit_failure_is_fatal {W TI P : Type} (L : Lib TI P) (X : Ext W)
    (m : model TI P) (w : W) (err : String)
    (hbuf : L.Value m.textInput ≠ "") (hfail : submitFails L X m w err) :
    (model.Update L X m (Msg.KeyMsg "enter") w).out = Outcome.fatal err := by
  rcases hfail with ⟨hs, hg | ⟨id, hg, hS⟩⟩ | ⟨hs, hy | ⟨hy, hG, hne⟩⟩
  · rcases hgen : X.Generate idAlphabet idSize w with ⟨r, w1⟩
    rw [hgen] at hg
    simp only at hg
    subst hg
    simp [model.Update, model.create, hs, hbuf, hgen]
  · rcases hgen : X.Generate idAlphabet idSize w with ⟨r, w1⟩
    rw [hgen] at hg hS
    simp only at hg hS
    subst hg
    rcases hset : X.Set id (L.Value m.textInput) w1 with ⟨r2, w2⟩
    rw [hset] at hS
    simp only at hS
    subst hS
    simp [model.Update, model.create, hs, hbuf, hgen, hset]
  · rcases hsync : X.Sync w with ⟨r, w1⟩
    rw [hsync] at hy
    simp only at hy
    subst hy
    simp [model.Update, model.retrieve, hs, hbuf, hsync]
  · rcases hsync : X.Sync w with ⟨r, w1⟩
    rw [hsync] at hy hG
    simp only at hy hG
    subst hy
    rcases hget : X.Get (L.Value m.textInput) w1 with ⟨r2, w2⟩
    rw [hget] at hG
    simp only at hG
    subst hG
    simp [model.Update, model.retrieve, hs, hbuf, hsync, hget, hne]

theorem submit_failure_is_fatal_witness :
    demoLib.Value (demoModel "newPaste" "hello world").textInput ≠ "" ∧
    submitFails demoLib (mapExt brokenGen) (demoModel "newPaste" "hello world") emptyWorld
      "no entropy" ∧
    (model.Update demoLib (mapExt brokenGen) (demoModel "newPaste" "hello world")
      (Msg.KeyMsg "enter") emptyWorld).out = Outcome.fatal "no entropy" :=
  ⟨by decide, Or.inl ⟨rfl, Or.inl rfl⟩,
    submit_failure_is_fatal demoLib (mapExt brokenGen) (demoModel "newPaste" "hello world")
      emptyWorld "no entropy" (by decide) (Or.inl ⟨rfl, Or.inl rfl⟩)⟩

/-- C8, counterexample. From a model in the KeyNotFound phase there is no
sequence of key inputs without a quit key after which the phase is Menu. -/
theorem no_way_back_from_key_not_found :
    ¬ ∃ keys : List String, (∀ k ∈ keys, ¬ quitKey k) ∧
      ∃ m1, (updates demoLib (mapExt demoGen) (demoModel "keyNotFound" "zzzzzzzz") emptyWorld
          (keys.map Msg.KeyMsg)).out = Outcome.returned m1 ∧ m1.state = "" := by
  rintro ⟨keys, _, m1, hout, hst⟩
  obtain ⟨m2, hrun, hst2⟩ := updates_frozen demoLib (mapExt demoGen) (keys.map Msg.KeyMsg)
    (demoModel "keyNotFound" "zzzzzzzz") emptyWorld (by decide) (by decide) (by decide)
    (by decide)
  rw [hrun] at hout
  simp only [Outcome.returned.injEq] at hout
  subst hout
  rw [hst] at hst2
  exact absurd hst2 (by decide)

/-- C8, amended. The KeyNotFound phase is final: for every model in the
KeyNotFound phase and every finite sequence of messages (keys, resizes, ticks
and others), the session returns a model that is still in the KeyNotFound phase,
the world is left as it was and no collaborator is called; only a quit key ends
the stay in that phase, by ending the session. -/
theorem key_not_found_is_final {W TI P : Type} (L : Lib TI P) (X : Ext W)
    (m : model TI P) (w : W) (msgs : List Msg) (hphase : m.state = "keyNotFound") :
    ∃ m1, updates L X m w msgs = ⟨Outcome.returned m1, w, []⟩ ∧
      m1.state = "keyNotFound" := by
  obtain ⟨m1, hrun, hst⟩ := updates_frozen L X msgs m w
    (by rw [hphase]; decide) (by rw [hphase]; decide) (by rw [hphase]; decide)
    (by rw [hphase]; decide)
  exact ⟨m1, hrun, hst.trans hphase⟩

theorem key_not_found_is_final_witness :
    (demoModel "keyNotFound" "zzzzzzzz").state = "keyNotFound" ∧
    ∃ m1, updates demoLib (mapExt demoGen) (demoModel "keyNotFound" "zzzzzzzz") emptyWorld
        [Msg.KeyMsg "b", Msg.KeyMsg "enter", Msg.tickMsg 1, Msg.KeyMsg "x"] =
        ⟨Outcome.returned m1, emptyWorld, []⟩ ∧
      m1.state = "keyNotFound" :=
  ⟨rfl, key_not_found_is_final demoLib (mapExt demoGen) (demoModel "keyNotFound" "zzzzzzzz")
    emptyWorld [Msg.KeyMsg "b", Msg.KeyMsg "enter", Msg.tickMsg 1, Msg.KeyMsg "x"] rfl⟩

/-- C10. Reachable-phase invariant: from the model `teaHandler` builds (phase
Menu), after any finite sequence of messages, every model the session returns
has one of the phases of `reachablePhases`; its phase is never `loading`, so
`View` never shows the progress bar, and `View` takes its default branch exactly
when the phase is `keyNotFound`.  With collaborators that do not fail, except
that `Get` may report key-not-found, the session does return a model.  (A model
returned along the way is the one returned by a prefix of the sequence.) -/
theorem reachable_phase_invariant {W TI P : Type} (L : Lib TI P) (X : Ext W)
    (ti : TI) (pr : P) (pty : Option Pty) (m0 : model TI P) (w : W) (msgs : List Msg)
    (hinit : teaHandler ti pr pty = some m0) :
    (∀ m1, (updates L X m0 w msgs).out = Outcome.returned m1 →
      m1.state ∈ reachablePhases ∧ m1.state ≠ "loading" ∧
      (∀ bar, model.View L m1 ≠ Screen.progressBar bar) ∧
      (model.View L m1 = Screen.uhOh ↔ m1.state = "keyNotFound")) ∧
    (X.Benign → ∃ m1, (updates L X m0 w msgs).out = Outcome.returned m1) := by
  have h0 : m0.state = "" := by
    cases pty with
    | none => simp [teaHandler] at hinit
    | some p =>
      simp only [teaHandler, Option.some.injEq] at hinit
      rw [← hinit]
  refine ⟨?_, fun hX => updates_returns_of_benign L X hX msgs m0 w⟩
  intro m1 hout
  have hmem : m1.state ∈ reachablePhases :=
    updates_reachable L X msgs m0 m1 w (by rw [h0]; decide) hout
  refine ⟨hmem, ?_⟩
  simp only [reachablePhases, List.mem_cons, List.mem_singleton, List.not_mem_nil,
    or_false] at hmem
  rcases hmem with h | h | h | h | h | h | h <;> simp [model.View, h]

theorem reachable_phase_invariant_witness :
    teaHandler "" 0 (some ⟨"xterm", 80, 24⟩) = some (demoModel "" "") ∧
    (∀ m1, (updates demoLib (mapExt demoGen) (demoModel "" "") emptyWorld
        [Msg.KeyMsg "r", Msg.KeyMsg "z", Msg.KeyMsg "enter", Msg.tickMsg 1]).out =
        Outcome.returned m1 →
      m1.state ∈ reachablePhases ∧ m1.state ≠ "loading" ∧
      (∀ bar, model.View demoLib m1 ≠ Screen.progressBar bar) ∧
      (model.View demoLib m1 = Screen.uhOh ↔ m1.state = "keyNotFound")) ∧
    ((mapExt demoGen).Benign → ∃ m1, (updates demoLib (mapExt demoGen) (demoModel "" "")
        emptyWorld [Msg.KeyMsg "r", Msg.KeyMsg "z", Msg.KeyMsg "enter", Msg.tickMsg 1]).out =
        Outcome.returned m1) :=
  ⟨rfl, reachable_phase_invariant demoLib (mapExt demoGen) "" 0 (some ⟨"xterm", 80, 24⟩)
    (demoModel "" "") emptyWorld
    [Msg.KeyMsg "r", Msg.KeyMsg "z", Msg.KeyMsg "enter", Msg.tickMsg 1] rfl⟩

/-- C4. The alphabet the create branch passes to the generator has 35 distinct
symbols, all in a-z or 0-9, and the letter k is not among them; the requested
length is 8. -/
theorem alphabet_lacks_k :
    (model.Update demoLib (mapExt demoGen) (demoModel "newPaste" "hello world")
      (Msg.KeyMsg "enter") emptyWorld).calls.head? =
      some (Call.Generate "qwertyuiopasdfghjlzxcvbnm1234567890" 8) ∧
    idAlphabet.length = 35 ∧ idAlphabet.data.Nodup ∧ 'k' ∉ idAlphabet.data ∧
    (∀ ch ∈ idAlphabet.data, ('a' ≤ ch ∧ ch ≤ 'z') ∨ ('0' ≤ ch ∧ ch ≤ '9')) ∧
    idSize = 8 :=
  ⟨rfl, by decide, by decide, by decide, by decide, rfl⟩

end CodeCube
